import Mathlib

/-!
Shallow embedding of the CHIP-8 execution engine of this repository
(src/src/emulator.h, src/src/geblib.h, src/src/keyboard.h, the u4 type from
src/unnamed/part_002), together with theorems settling the specification
claims about it.

Machine integers are modelled as Nat with an explicit modulus wherever the
C++ code performs fixed-width arithmetic: uint8 values carry `% 256`,
uint16 values carry `% 65536`, and the 4-bit `u4` bitfield carries `% 16`.
Out-of-range accesses to `std::array` are undefined behaviour in C++; the
embedding is made total by a default branch (reads yield 0, writes are
dropped), and claim C10 is exactly about when that branch is unreachable.
-/

namespace Chip8

/-- Emulator state, field for field the private state of `Chip8::Emulator`
(display/keyboard/timers are external collaborators; the display buffer is
the 64 times 32 boolean bitmap held by reference). -/
structure EmuState where
  memory : Fin 4096 → Nat
  programCounter : Nat
  stackFrames : Fin 16 → Nat
  stackPointer : Nat
  gpRegisters : Fin 16 → Nat
  iRegister : Nat
  displayBuffer : Fin 2048 → Bool

/-- The `u4` constructor from src/unnamed/part_002: `value(x % 16)`. -/
def toU4 (n : Nat) : Fin 16 := ⟨n % 16, Nat.mod_lt _ (by norm_num)⟩

/-- Total memory read; the else branch models what is undefined behaviour
in C++ for an out-of-range `std::array` index. -/
def memRead (st : EmuState) (addr : Nat) : Nat :=
  if h : addr < 4096 then st.memory ⟨addr, h⟩ else 0

/-- Total memory write; out-of-range writes (undefined behaviour in C++)
are dropped. -/
def memWrite (st : EmuState) (addr v : Nat) : EmuState :=
  if h : addr < 4096 then
    { st with memory := Function.update st.memory ⟨addr, h⟩ v }
  else st

/-- Assignment `gp_registers[r] = v`. -/
def setReg (st : EmuState) (r : Fin 16) (v : Nat) : EmuState :=
  { st with gpRegisters := Function.update st.gpRegisters r v }

/-- The `program_counter += n` idiom on a uint16. -/
def pcAdd (st : EmuState) (n : Nat) : EmuState :=
  { st with programCounter := (st.programCounter + n) % 65536 }

/-- uint8 subtraction `a - b` (wrapping): both operands are uint8 in the
source, so the result is `(a - b) mod 256`. -/
def byteSub (a b : Nat) : Nat := (a % 256 + 256 - b % 256) % 256

-- 8xy4 - carry_add_reg from src/src/emulator.h lines 169-173.
-- First `gp_registers[reg_a] += gp_registers[reg_b]` (uint8, wraps), then
-- the flag is computed from the UPDATED `gp_registers[reg_a]`:
-- `gp_registers[0xf] = ((uint16_t)gp_registers[reg_a] + (uint16_t)gp_registers[reg_b]) > 0xff`.

/-- Handler of opcode 8xy4 (add with carry flag), exactly as in the source:
the sum is stored first, and the flag comparison then reads the already
updated destination register. -/
def carry_add_reg (st : EmuState) (reg_a reg_b : Fin 16) : EmuState :=
  let st1 := setReg st reg_a ((st.gpRegisters reg_a + st.gpRegisters reg_b) % 256)
  let st2 := setReg st1 15 (if st1.gpRegisters reg_a + st1.gpRegisters reg_b > 0xff then 1 else 0)
  pcAdd st2 2

/-- Handler of opcode 8xy5 (subtract with borrow flag), source lines
176-182: the flag `gp_registers[0xf] = gp_registers[reg_a] >= gp_registers[reg_b]`
is written first, then `gp_registers[reg_a] -= gp_registers[reg_b]`. -/
def carry_sub_reg (st : EmuState) (reg_a reg_b : Fin 16) : EmuState :=
  let st1 := setReg st 15 (if st.gpRegisters reg_a ≥ st.gpRegisters reg_b then 1 else 0)
  let st2 := setReg st1 reg_a (byteSub (st1.gpRegisters reg_a) (st1.gpRegisters reg_b))
  pcAdd st2 2

/-- Handler of opcode 8x_6 (shift right), source lines 185-190: the shift
`gp_registers[reg] >>= 1` happens first, and then
`gp_registers[0xf] = 0x01 & gp_registers[reg]` reads the SHIFTED value. -/
def shift_right (st : EmuState) (reg : Fin 16) : EmuState :=
  let st1 := setReg st reg (st.gpRegisters reg / 2)
  let st2 := setReg st1 15 (0x01 &&& st1.gpRegisters reg)
  pcAdd st2 2

/-- Handler of opcode 8xy7 (reversed subtract), source lines 193-197. -/
def subtract_reversed (st : EmuState) (reg_a reg_b : Fin 16) : EmuState :=
  let st1 := setReg st 15 (if st.gpRegisters reg_b ≥ st.gpRegisters reg_a then 1 else 0)
  let st2 := setReg st1 reg_a (byteSub (st1.gpRegisters reg_b) (st1.gpRegisters reg_a))
  pcAdd st2 2

/-- Handler of opcode 8x_e (shift left), source lines 200-204: here the
flag is read from the register BEFORE the shift. -/
def shift_left (st : EmuState) (reg : Fin 16) : EmuState :=
  let st1 := setReg st 15 (if 0x80 &&& st.gpRegisters reg ≠ 0 then 1 else 0)
  let st2 := setReg st1 reg ((st1.gpRegisters reg * 2) % 256)
  pcAdd st2 2

/-- Errors thrown by instruction handlers (std::runtime_error sites). -/
inductive EmuError where
  | retEmptyStack
  | callStackFull
  | callOutsideMemory
  | bcdOutsideMemory
  | unknownInstruction
  deriving DecidableEq

/-- Outcome of one `evaluate_instruction` cycle: normal completion with the
should-end-execution flag, a thrown error, or divergence of the fx55/fx65
copy loop (the C++ loop that never exits). -/
inductive StepResult where
  | ok : EmuState → Bool → StepResult
  | err : EmuError → StepResult
  | hang : StepResult

/-- External inputs consumed by handlers: keyboard pressed vector, the byte
drawn from random_u8_dist, the delay timer value, and the key returned by
block_until_next_keypress. -/
structure Env where
  pressed : Fin 16 → Bool
  randomByte : Nat
  delayValue : Nat
  nextKey : Fin 16

/-- Total read of a stack frame; the else branch models what is undefined
behaviour in C++ for an out-of-range index. -/
def stackRead (st : EmuState) (n : Nat) : Nat :=
  if h : n < 16 then st.stackFrames ⟨n, h⟩ else 0

/-- Opcode 0xxx handler (sys): a pure no-op apart from the PC advance. -/
def sys (st : EmuState) (_address : Nat) : EmuState := pcAdd st 2

/-- Opcode 00e0 handler (cls): clears the display buffer. -/
def cls (st : EmuState) : EmuState :=
  pcAdd { st with displayBuffer := fun _ => false } 2

/-- Opcode 00ee handler (ret), source lines 71-80. -/
def ret (st : EmuState) : Except EmuError EmuState :=
  if st.stackPointer = 0 then .error .retEmptyStack
  else
    .ok { st with
      stackPointer := st.stackPointer - 1
      programCounter := stackRead st (st.stackPointer - 1) }

/-- Opcode 1xxx handler (jp). -/
def jp (st : EmuState) (address : Nat) : EmuState :=
  { st with programCounter := address }

/-- Opcode 2xxx handler (call), source lines 89-102: throws when the stack
pointer is above 15 or when the target address is at least
`memory.size() - 1 = 4095`; otherwise pushes PC + 2 and jumps. -/
def call (st : EmuState) (target_address : Nat) : Except EmuError EmuState :=
  if h : st.stackPointer > 15 then .error .callStackFull
  else if target_address ≥ 4096 - 1 then .error .callOutsideMemory
  else
    .ok { st with
      stackFrames := Function.update st.stackFrames ⟨st.stackPointer, by omega⟩
        ((st.programCounter + 2) % 65536)
      stackPointer := st.stackPointer + 1
      programCounter := target_address }

/-- Opcode 3xyy handler. -/
def skip_equal (st : EmuState) (reg : Fin 16) (value : Nat) : EmuState :=
  if st.gpRegisters reg = value then pcAdd st 4 else pcAdd st 2

/-- Opcode 4xyy handler. -/
def skip_not_equal (st : EmuState) (reg : Fin 16) (value : Nat) : EmuState :=
  if st.gpRegisters reg ≠ value then pcAdd st 4 else pcAdd st 2

/-- Opcode 5xy0 handler. -/
def skip_equal_reg (st : EmuState) (reg_a reg_b : Fin 16) : EmuState :=
  if st.gpRegisters reg_a = st.gpRegisters reg_b then pcAdd st 4 else pcAdd st 2

/-- Opcode 6xyy handler. -/
def load (st : EmuState) (reg : Fin 16) (y : Nat) : EmuState :=
  pcAdd (setReg st reg y) 2

/-- Opcode 7xyy handler (wrapping add immediate, no flag). -/
def add (st : EmuState) (reg : Fin 16) (y : Nat) : EmuState :=
  pcAdd (setReg st reg ((st.gpRegisters reg + y) % 256)) 2

/-- Opcode 8xy0 handler. -/
def load_reg (st : EmuState) (reg_a reg_b : Fin 16) : EmuState :=
  pcAdd (setReg st reg_a (st.gpRegisters reg_b)) 2

/-- Opcode 8xy1 handler. -/
def bitwise_or (st : EmuState) (reg_a reg_b : Fin 16) : EmuState :=
  pcAdd (setReg st reg_a (st.gpRegisters reg_a ||| st.gpRegisters reg_b)) 2

/-- Opcode 8xy2 handler. -/
def bitwise_and (st : EmuState) (reg_a reg_b : Fin 16) : EmuState :=
  pcAdd (setReg st reg_a (st.gpRegisters reg_a &&& st.gpRegisters reg_b)) 2

/-- Opcode 8xy3 handler. -/
def bitwise_xor (st : EmuState) (reg_a reg_b : Fin 16) : EmuState :=
  pcAdd (setReg st reg_a (st.gpRegisters reg_a ^^^ st.gpRegisters reg_b)) 2

/-- Opcode 9xy0 handler. -/
def skip_not_equal_reg (st : EmuState) (reg_a reg_b : Fin 16) : EmuState :=
  if st.gpRegisters reg_a ≠ st.gpRegisters reg_b then pcAdd st 4 else pcAdd st 2

/-- Opcode axxx handler. -/
def load_address (st : EmuState) (address : Nat) : EmuState :=
  pcAdd { st with iRegister := address } 2

/-- Opcode bxxx handler. -/
def jump_reg0 (st : EmuState) (address_offset : Nat) : EmuState :=
  { st with programCounter := (st.gpRegisters 0 + address_offset) % 65536 }

/-- Opcode cxyy handler; the byte drawn from the distribution comes from
the environment. -/
def random_int (env : Env) (st : EmuState) (reg : Fin 16) (y : Nat) : EmuState :=
  pcAdd (setReg st reg (env.randomByte &&& y)) 2

/-- Position of a blitted sprite pixel in the 64 times 32 buffer: both axes
wrap, `xpos = (ul_xpos + bit_i) % 64`, `ypos = (ul_ypos + row_i) % 32`, and
the buffer index is `xpos + ypos * 64`. -/
def drawPos (ulx uly bit_i row_i : Nat) : Fin 2048 :=
  ⟨(ulx + bit_i) % 64 + ((uly + row_i) % 32) * 64, by
    have h1 : (ulx + bit_i) % 64 < 64 := Nat.mod_lt _ (by norm_num)
    have h2 : (uly + row_i) % 32 < 32 := Nat.mod_lt _ (by norm_num)
    omega⟩

/-- Sprite bit for column `bit_i` of a row byte: `(row & (0x80 >> bit_i)) != 0`. -/
def spriteBit (row bit_i : Nat) : Bool :=
  decide (row &&& (0x80 >>> bit_i) ≠ 0)

/-- One pixel of the XOR blit: flips the buffer bit at the position and
records a collision when a set pixel becomes cleared (`before && !after`). -/
def blitStep (acc : (Fin 2048 → Bool) × Bool) (e : Fin 2048 × Bool) :
    (Fin 2048 → Bool) × Bool :=
  let before := acc.1 e.1
  let after := xor before e.2
  (Function.update acc.1 e.1 after, acc.2 || (before && !after))

/-- The pixel positions and sprite bits visited by the two nested loops of
draw_sprite, row major, rows read from memory at the I register. -/
def drawList (st : EmuState) (ulx uly : Nat) (value : Nat) : List (Fin 2048 × Bool) :=
  (List.range value).flatMap fun row_i =>
    (List.range 8).map fun bit_i =>
      (drawPos ulx uly bit_i row_i, spriteBit (memRead st (st.iRegister + row_i)) bit_i)

/-- Opcode dxyz handler (draw_sprite), source lines 234-269: VF is zeroed
first, then the upper-left position is read (so VF as a position register
always reads 0), then the sprite is XOR blitted; the collision writes to VF
inside the loop touch no value the loop reads, so they are gathered in the
fold accumulator and written once at the end. -/
def draw_sprite (st : EmuState) (reg_x reg_y : Fin 16) (value : Fin 16) : EmuState :=
  let st0 := setReg st 15 0
  let ulx := st0.gpRegisters reg_x
  let uly := st0.gpRegisters reg_y
  let res := (drawList st0 ulx uly value.val).foldl blitStep (st0.displayBuffer, false)
  let st1 := { st0 with displayBuffer := res.1 }
  let st2 := setReg st1 15 (if res.2 then 1 else 0)
  pcAdd st2 2

/-- Opcode ex9e handler: key selected by the register value mod 16. -/
def skip_if_key_press (env : Env) (st : EmuState) (reg : Fin 16) : EmuState :=
  if env.pressed (toU4 (st.gpRegisters reg)) then pcAdd st 4 else pcAdd st 2

/-- Opcode exa1 handler (source lines 282-289); note that the dispatch in
evaluate_instruction never reaches it. -/
def skip_if_not_key_press (env : Env) (st : EmuState) (reg : Fin 16) : EmuState :=
  if !(env.pressed (toU4 (st.gpRegisters reg))) then pcAdd st 4 else pcAdd st 2

/-- Opcode fx07 handler; the delay timer value comes from the environment
(it is a uint8, hence the mod). -/
def load_from_delay_timer (env : Env) (st : EmuState) (reg : Fin 16) : EmuState :=
  pcAdd (setReg st reg (env.delayValue % 256)) 2

/-- Opcode fx0a handler; the key handed over by the blocking channel comes
from the environment. -/
def load_from_next_keypress (env : Env) (st : EmuState) (reg : Fin 16) : EmuState :=
  pcAdd (setReg st reg env.nextKey.val) 2

/-- Opcode fx15 handler; the delay timer itself is an external collaborator,
so on the modelled state only the PC advances. -/
def set_delay (st : EmuState) (_reg : Fin 16) : EmuState := pcAdd st 2

/-- Opcode fx18 handler; as for fx15, only the PC advance is modelled. -/
def set_sound (st : EmuState) (_reg : Fin 16) : EmuState := pcAdd st 2

/-- Opcode fx1e handler: `i_register += gp_registers[reg]` on a uint16. -/
def increment_i_reg (st : EmuState) (reg : Fin 16) : EmuState :=
  pcAdd { st with iRegister := (st.iRegister + st.gpRegisters reg) % 65536 } 2

/-- Opcode fx29 handler: `I = 0x100 + 5 * (gp_registers[reg] % 16)`. -/
def load_sprite (st : EmuState) (reg : Fin 16) : EmuState :=
  pcAdd { st with iRegister := 0x100 + 5 * (st.gpRegisters reg % 16) } 2

/-- Opcode fx33 handler (load_bcd), source lines 333-346: throws when
`i_register >= memory.size() - 2`, else writes the three decimal digits. -/
def load_bcd (st : EmuState) (reg : Fin 16) : Except EmuError EmuState :=
  if st.iRegister ≥ 4096 - 2 then .error .bcdOutsideMemory
  else
    let v := st.gpRegisters reg
    let m1 := memWrite st st.iRegister (v % 10)
    let m2 := memWrite m1 (st.iRegister + 1) ((v % 100 - v % 10) / 10)
    let m3 := memWrite m2 (st.iRegister + 2) ((v - v % 100) / 100)
    .ok (pcAdd m3 2)

/-- The loop `for (u4 i = 0; i <= reg_final; i++) memory[i_register+i] = gp_registers[i]`
of the fx55 handler, with explicit fuel: the u4 counter increments modulo
16 (the 4-bit bitfield wraps), and the returned value is `none` exactly
when the given fuel runs out before the loop condition fails. -/
def reg_to_mem_loop : EmuState → Nat → Nat → Nat → Option EmuState
  | _, _, _, 0 => none
  | st, regFinal, i, fuel + 1 =>
    if i ≤ regFinal then
      reg_to_mem_loop (memWrite st (st.iRegister + i) (st.gpRegisters (toU4 i)))
        regFinal ((i + 1) % 16) fuel
    else some st

/-- Opcode fx55 handler (load_reg_to_mem), source lines 349-356, run with
fuel 32; a `none` result means the C++ loop diverges (fuel 32 is more than
any terminating run of the 4-bit counter can use). -/
def load_reg_to_mem (st : EmuState) (reg_final : Fin 16) : Option EmuState :=
  (reg_to_mem_loop st reg_final.val 0 32).map fun st1 => pcAdd st1 2

/-- The symmetric loop of the fx65 handler,
`for (u4 i = 0; i <= reg_final; i++) gp_registers[i] = memory[i_register+i]`. -/
def mem_to_reg_loop : EmuState → Nat → Nat → Nat → Option EmuState
  | _, _, _, 0 => none
  | st, regFinal, i, fuel + 1 =>
    if i ≤ regFinal then
      mem_to_reg_loop (setReg st (toU4 i) (memRead st (st.iRegister + i)))
        regFinal ((i + 1) % 16) fuel
    else some st

/-- Opcode fx65 handler (load_mem_to_reg), source lines 359-368; its
`reg_final > 15` guard can never fire for a u4 argument and is omitted. -/
def load_mem_to_reg (st : EmuState) (reg_final : Fin 16) : Option EmuState :=
  (mem_to_reg_loop st reg_final.val 0 32).map fun st1 => pcAdd st1 2

/-- GebLib::get_nibble: `(word & 0xf << num_shifts) >> num_shifts` with
`num_shifts = 4 * (3 - nibble_i)`; the dispatch only calls it with the
constants 1, 2 and 3, so its out-of-range throw is unreachable. -/
def get_nibble (word : Nat) (nibble_i : Nat) : Nat :=
  (word &&& (0xf <<< (4 * (3 - nibble_i)))) >>> (4 * (3 - nibble_i))

/-- Helper lifting an Except-returning handler into a StepResult. -/
def liftExcept (r : Except EmuError EmuState) : StepResult :=
  match r with
  | .ok s => .ok s false
  | .error e => .err e

/-- Helper lifting a fueled Option-returning handler into a StepResult;
`none` (the diverging loop) becomes `hang`. -/
def liftOption (r : Option EmuState) : StepResult :=
  match r with
  | some s => .ok s false
  | none => .hang

/-- The fetch-decode-dispatch chain of evaluate_instruction, source lines
374-499, with every mask-and-compare branch in source order. The boolean
in the ok result is the return value (true only for a jump to the current
address). The exa1 pattern is absent here exactly as it is in the source. -/
def evaluate_instruction (env : Env) (st : EmuState) (instruction : Nat) : StepResult :=
  if instruction = 0x00e0 then .ok (cls st) false
  else if instruction = 0x00ee then liftExcept (ret st)
  else if instruction &&& 0xf000 = 0x0000 then .ok (sys st (instruction &&& 0x0fff)) false
  else if instruction &&& 0xf000 = 0x1000 then
    let target_address := instruction &&& 0x0fff
    if target_address = st.programCounter then .ok (jp st target_address) true
    else .ok (jp st target_address) false
  else if instruction &&& 0xf000 = 0x2000 then liftExcept (call st (instruction &&& 0x0fff))
  else if instruction &&& 0xf000 = 0x3000 then
    .ok (skip_equal st (toU4 (get_nibble instruction 1)) (instruction &&& 0x00ff)) false
  else if instruction &&& 0xf000 = 0x4000 then
    .ok (skip_not_equal st (toU4 (get_nibble instruction 1)) (instruction &&& 0x00ff)) false
  else if instruction &&& 0xf00f = 0x5000 then
    .ok (skip_equal_reg st (toU4 (get_nibble instruction 1)) (toU4 (get_nibble instruction 2))) false
  else if instruction &&& 0xf000 = 0x6000 then
    .ok (load st (toU4 (get_nibble instruction 1)) (instruction &&& 0x00ff)) false
  else if instruction &&& 0xf000 = 0x7000 then
    .ok (add st (toU4 (get_nibble instruction 1)) (instruction &&& 0x00ff)) false
  else if instruction &&& 0xf00f = 0x8000 then
    .ok (load_reg st (toU4 (get_nibble instruction 1)) (toU4 (get_nibble instruction 2))) false
  else if instruction &&& 0xf00f = 0x8001 then
    .ok (bitwise_or st (toU4 (get_nibble instruction 1)) (toU4 (get_nibble instruction 2))) false
  else if instruction &&& 0xf00f = 0x8002 then
    .ok (bitwise_and st (toU4 (get_nibble instruction 1)) (toU4 (get_nibble instruction 2))) false
  else if instruction &&& 0xf00f = 0x8003 then
    .ok (bitwise_xor st (toU4 (get_nibble instruction 1)) (toU4 (get_nibble instruction 2))) false
  else if instruction &&& 0xf00f = 0x8004 then
    .ok (carry_add_reg st (toU4 (get_nibble instruction 1)) (toU4 (get_nibble instruction 2))) false
  else if instruction &&& 0xf00f = 0x8005 then
    .ok (carry_sub_reg st (toU4 (get_nibble instruction 1)) (toU4 (get_nibble instruction 2))) false
  else if instruction &&& 0xf00f = 0x8006 then
    .ok (shift_right st (toU4 (get_nibble instruction 1))) false
  else if instruction &&& 0xf00f = 0x8007 then
    .ok (subtract_reversed st (toU4 (get_nibble instruction 1)) (toU4 (get_nibble instruction 2))) false
  else if instruction &&& 0xf00f = 0x800e then
    .ok (shift_left st (toU4 (get_nibble instruction 1))) false
  else if instruction &&& 0xf00f = 0x9000 then
    .ok (skip_not_equal_reg st (toU4 (get_nibble instruction 1)) (toU4 (get_nibble instruction 2))) false
  else if instruction &&& 0xf000 = 0xa000 then
    .ok (load_address st (instruction &&& 0x0fff)) false
  else if instruction &&& 0xf000 = 0xb000 then
    .ok (jump_reg0 st (instruction &&& 0x0fff)) false
  else if instruction &&& 0xf000 = 0xc000 then
    .ok (random_int env st (toU4 (get_nibble instruction 1)) (instruction &&& 0x00ff)) false
  else if instruction &&& 0xf000 = 0xd000 then
    .ok (draw_sprite st (toU4 (get_nibble instruction 1)) (toU4 (get_nibble instruction 2))
      (toU4 (get_nibble instruction 3))) false
  else if instruction &&& 0xf0ff = 0xe09e then
    .ok (skip_if_key_press env st (toU4 (get_nibble instruction 1))) false
  else if instruction &&& 0xf0ff = 0xf007 then
    .ok (load_from_delay_timer env st (toU4 (get_nibble instruction 1))) false
  else if instruction &&& 0xf0ff = 0xf00a then
    .ok (load_from_next_keypress env st (toU4 (get_nibble instruction 1))) false
  else if instruction &&& 0xf0ff = 0xf015 then
    .ok (set_delay st (toU4 (get_nibble instruction 1))) false
  else if instruction &&& 0xf0ff = 0xf018 then
    .ok (set_sound st (toU4 (get_nibble instruction 1))) false
  else if instruction &&& 0xf0ff = 0xf01e then
    .ok (increment_i_reg st (toU4 (get_nibble instruction 1))) false
  else if instruction &&& 0xf0ff = 0xf029 then
    .ok (load_sprite st (toU4 (get_nibble instruction 1))) false
  else if instruction &&& 0xf0ff = 0xf033 then
    liftExcept (load_bcd st (toU4 (get_nibble instruction 1)))
  else if instruction &&& 0xf0ff = 0xf055 then
    liftOption (load_reg_to_mem st (toU4 (get_nibble instruction 1)))
  else if instruction &&& 0xf0ff = 0xf065 then
    liftOption (load_mem_to_reg st (toU4 (get_nibble instruction 1)))
  else .err .unknownInstruction

/-- A concrete emulator state used for concrete evaluations: memory all
zero, program counter 0x200, empty stack, given register file. -/
def mkState (gp : Fin 16 → Nat) : EmuState :=
  { memory := fun _ => 0
    programCounter := 0x200
    stackFrames := fun _ => 0
    stackPointer := 0
    gpRegisters := gp
    iRegister := 0
    displayBuffer := fun _ => false }

@[simp] theorem setReg_gp (st : EmuState) (r s : Fin 16) (v : Nat) :
    (setReg st r v).gpRegisters s = if s = r then v else st.gpRegisters s := by
  simp [setReg, Function.update_apply]

@[simp] theorem pcAdd_gp (st : EmuState) (n : Nat) :
    (pcAdd st n).gpRegisters = st.gpRegisters := rfl

/-- A concrete environment: no key pressed, zero random byte and timer,
next blocking key 0. -/
def env0 : Env :=
  { pressed := fun _ => false, randomByte := 0, delayValue := 0, nextKey := 0 }

-- C1 -------------------------------------------------------------------

/-- C1, code bug evidence: the instruction word 0xE0A1 falls through every
dispatch pattern of evaluate_instruction and hits the fatal unknown
instruction branch (and likewise 0xEFA1), although the skip-if-not-pressed
handler exists and, run directly on the same state with no key pressed,
would advance the PC by 4 (and by 2 with the key pressed). -/
theorem exa1_not_dispatched :
    evaluate_instruction env0 (mkState fun _ => 0) 0xe0a1 = .err .unknownInstruction
    ∧ evaluate_instruction env0 (mkState fun _ => 0) 0xefa1 = .err .unknownInstruction
    ∧ (skip_if_not_key_press env0 (mkState fun _ => 0) 0).programCounter = 0x200 + 4
    ∧ (skip_if_not_key_press { env0 with pressed := fun _ => true }
        (mkState fun _ => 0) 0).programCounter = 0x200 + 2 := by
  refine ⟨rfl, rfl, ?_, ?_⟩ <;> decide

-- C6 -------------------------------------------------------------------

/-- C6, counterexample: a call to target 0xFFF = 4095 with an empty stack
fails, although 4095 lies inside the 4096-byte memory and the stack holds
no return address; the source check rejects every target at or above
`memory.size() - 1`. -/
theorem call_4095_counterexample :
    call (mkState fun _ => 0) 4095 = Except.error EmuError.callOutsideMemory
    ∧ (4095 : Nat) < 4096
    ∧ (mkState fun _ => 0).stackPointer = 0 := by
  refine ⟨rfl, by norm_num, rfl⟩

/-- C6 as amended: for a 12-bit target, the call handler fails exactly when
the stack already holds 16 return addresses or the target is at least 4095
(= memory size minus one); on success it stores PC + 2 into the next free
frame, increments the stack pointer, jumps to the target, and leaves every
other frame (frame 0 in particular) untouched. -/
theorem call_spec (st : EmuState) (target : Nat) (ht : target < 4096) :
    ((∃ e, call st target = .error e) ↔ st.stackPointer ≥ 16 ∨ target ≥ 4095)
    ∧ (∀ st1, call st target = .ok st1 →
        st1.programCounter = target
        ∧ st1.stackPointer = st.stackPointer + 1
        ∧ (∀ h : st.stackPointer < 16,
            st1.stackFrames ⟨st.stackPointer, h⟩ = (st.programCounter + 2) % 65536)
        ∧ ∀ j : Fin 16, j.val ≠ st.stackPointer → st1.stackFrames j = st.stackFrames j) := by
  unfold call
  by_cases hsp : st.stackPointer > 15
  · simp only [dif_pos hsp]
    refine ⟨⟨fun _ => Or.inl (by omega), fun _ => ⟨_, rfl⟩⟩, fun st1 h => by cases h⟩
  · simp only [dif_neg hsp]
    by_cases htg : target ≥ 4096 - 1
    · simp only [if_pos htg]
      refine ⟨⟨fun _ => Or.inr (by omega), fun _ => ⟨_, rfl⟩⟩, fun st1 h => by cases h⟩
    · simp only [if_neg htg]
      constructor
      · constructor
        · rintro ⟨e, h⟩; cases h
        · intro h; omega
      · intro st1 h
        injection h with h
        subst h
        refine ⟨rfl, rfl, fun h => ?_, fun j hj => ?_⟩
        · simp
        · exact Function.update_noteq (fun hc => hj (by rw [hc])) _ _

/-- Witness for call_spec at an empty stack and target 0x300. -/
theorem call_spec_witness :
    ((∃ e, call (mkState fun _ => 0) 0x300 = .error e) ↔
      (mkState fun _ => 0).stackPointer ≥ 16 ∨ (0x300 : Nat) ≥ 4095)
    ∧ (∀ st1, call (mkState fun _ => 0) 0x300 = .ok st1 →
        st1.programCounter = 0x300
        ∧ st1.stackPointer = (mkState fun _ => 0).stackPointer + 1
        ∧ (∀ h : (mkState fun _ => 0).stackPointer < 16,
            st1.stackFrames ⟨(mkState fun _ => 0).stackPointer, h⟩ =
              ((mkState fun _ => 0).programCounter + 2) % 65536)
        ∧ ∀ j : Fin 16, j.val ≠ (mkState fun _ => 0).stackPointer →
            st1.stackFrames j = (mkState fun _ => 0).stackFrames j) :=
  call_spec (mkState fun _ => 0) 0x300 (by norm_num)

-- C2 -------------------------------------------------------------------

/-- C2, code bug evidence: at V0 = 200, V1 = 100 the opcode 8xy4 handler
leaves VF = 0 although 200 + 100 > 255 (the flag comparison reads the
already wrapped destination register 44, and 44 + 100 is not above 255),
while the claim requires VF = 1 exactly when the 9-bit sum exceeds 255. -/
theorem carry_add_reg_flag_bug :
    (carry_add_reg (mkState fun i => if i = 0 then 200 else if i = 1 then 100 else 0) 0 1).gpRegisters 15 = 0
    ∧ (carry_add_reg (mkState fun i => if i = 0 then 200 else if i = 1 then 100 else 0) 0 1).gpRegisters 0 = 44
    ∧ 200 + 100 > 255 := by
  refine ⟨?_, ?_, by norm_num⟩ <;> decide

-- C3 -------------------------------------------------------------------

/-- C3, code bug evidence: at V0 = 1 the opcode 8x_6 handler stores 0 in V0
and sets VF = 0, although the bit shifted out of the value 1 is its low bit
1; the flag expression reads the register only after the shift. -/
theorem shift_right_flag_bug :
    (shift_right (mkState fun i => if i = 0 then 1 else 0) 0).gpRegisters 15 = 0
    ∧ (shift_right (mkState fun i => if i = 0 then 1 else 0) 0).gpRegisters 0 = 0
    ∧ 1 % 2 = 1 := by
  refine ⟨?_, ?_, by norm_num⟩ <;> decide

-- C4 -------------------------------------------------------------------

/-- C4, counterexample: with x = 0 and y = 0xF (VF as the subtrahend
register), V0 = 10 and VF = 3, the opcode 8xy5 handler first overwrites VF
with the flag 1 and then subtracts that flag, giving V0 = 9, not the
claimed (10 - 3) mod 256 = 7. -/
theorem carry_sub_reg_vf_counterexample :
    (carry_sub_reg (mkState fun i => if i = 0 then 10 else if i = 15 then 3 else 0) 0 15).gpRegisters 0 = 9
    ∧ (10 + 256 - 3) % 256 = 7 := by
  constructor
  · decide
  · norm_num

/-- C4 as amended: for destination and source registers other than VF, the
opcode 8xy5 handler sets VF to 1 exactly when minuend is at least the
subtrahend, stores the wrapped difference in Vx, and equal operands give
flag 1 and result 0. -/
theorem carry_sub_reg_spec (st : EmuState) (x y : Fin 16) (hx : x ≠ 15) (hy : y ≠ 15)
    (ha : st.gpRegisters x < 256) (hb : st.gpRegisters y < 256) :
    ((carry_sub_reg st x y).gpRegisters 15 = if st.gpRegisters x ≥ st.gpRegisters y then 1 else 0)
    ∧ (carry_sub_reg st x y).gpRegisters x = (st.gpRegisters x + 256 - st.gpRegisters y) % 256
    ∧ (st.gpRegisters x = st.gpRegisters y →
        (carry_sub_reg st x y).gpRegisters 15 = 1 ∧ (carry_sub_reg st x y).gpRegisters x = 0) := by
  have h1 : (15 : Fin 16) ≠ x := Ne.symm hx
  have h2 : (15 : Fin 16) ≠ y := Ne.symm hy
  simp only [carry_sub_reg, pcAdd_gp, setReg_gp, byteSub, hx, hy, h1, h2, ite_false,
    ite_true, if_neg, if_pos, Nat.mod_eq_of_lt ha, Nat.mod_eq_of_lt hb]
  refine ⟨by simp, by simp [hx], ?_⟩
  intro heq
  refine ⟨by simp [heq], by simp [hx, heq]⟩


-- C5 -------------------------------------------------------------------

/-- C5, code bug evidence: for operand 15 the u4 loop counter of the bulk
transfer loops always satisfies the loop condition (a 4-bit value is never
above 15) and wraps from 15 back to 0, so both loops return none at every
fuel, that is, the C++ loops never terminate; for operand 14 the fx55
handler terminates normally. -/
theorem bulk_transfer_loop_diverges_at_15 :
    (∀ fuel st i, i < 16 → reg_to_mem_loop st 15 i fuel = none)
    ∧ (∀ fuel st i, i < 16 → mem_to_reg_loop st 15 i fuel = none)
    ∧ (load_reg_to_mem (mkState fun _ => 0) 14).isSome = true
    ∧ load_reg_to_mem (mkState fun _ => 0) 15 = none := by
  have h1 : ∀ fuel st i, i < 16 → reg_to_mem_loop st 15 i fuel = none := by
    intro fuel
    induction fuel with
    | zero => intro st i _; rfl
    | succ n ih =>
      intro st i hi
      simp only [reg_to_mem_loop]
      rw [if_pos (by omega)]
      exact ih _ _ (Nat.mod_lt _ (by norm_num))
  have h2 : ∀ fuel st i, i < 16 → mem_to_reg_loop st 15 i fuel = none := by
    intro fuel
    induction fuel with
    | zero => intro st i _; rfl
    | succ n ih =>
      intro st i hi
      simp only [mem_to_reg_loop]
      rw [if_pos (by omega)]
      exact ih _ _ (Nat.mod_lt _ (by norm_num))
  refine ⟨h1, h2, by decide, ?_⟩
  rw [load_reg_to_mem]
  rw [show ((15 : Fin 16)).val = 15 from rfl, h1 32 _ 0 (by norm_num)]
  rfl

/-- Witness for bulk_transfer_loop_diverges_at_15: the loops return none
at the concrete fuel 5, starting counter 0. -/
theorem bulk_transfer_loop_diverges_at_15_witness :
    (0 : Nat) < 16 ∧ reg_to_mem_loop (mkState fun _ => 0) 15 0 5 = none :=
  ⟨by norm_num, bulk_transfer_loop_diverges_at_15.1 5 (mkState fun _ => 0) 0 (by norm_num)⟩

/-- Witness for carry_sub_reg_spec at x = 0, y = 1, V0 = V1 = 5. -/
theorem carry_sub_reg_spec_witness :
    (carry_sub_reg (mkState fun i => if i = 0 then 5 else if i = 1 then 5 else 0) 0 1).gpRegisters 15 = 1
    ∧ (carry_sub_reg (mkState fun i => if i = 0 then 5 else if i = 1 then 5 else 0) 0 1).gpRegisters 0 = 0 :=
  (carry_sub_reg_spec (mkState fun i => if i = 0 then 5 else if i = 1 then 5 else 0) 0 1
    (by decide) (by decide) (by decide) (by decide)).2.2 (by decide)

-- C7: generic facts about the XOR blit fold -----------------------------

/-- The buffer component of the blit, as a standalone fold. -/
def bufFold {α : Type} [DecidableEq α] (l : List (α × Bool)) (buf : α → Bool) : α → Bool :=
  l.foldl (fun b e => Function.update b e.1 (xor (b e.1) e.2)) buf

theorem bufFold_cons {α : Type} [DecidableEq α] (e : α × Bool) (l : List (α × Bool))
    (buf : α → Bool) :
    bufFold (e :: l) buf = bufFold l (Function.update buf e.1 (xor (buf e.1) e.2)) := rfl

theorem any_congr_mem {α : Type} (l : List α) (f g : α → Bool)
    (h : ∀ a ∈ l, f a = g a) : l.any f = l.any g := by
  induction l with
  | nil => rfl
  | cons x xs ih =>
    simp only [List.any_cons, h x (List.mem_cons_self x xs),
      ih fun a ha => h a (List.mem_cons_of_mem _ ha)]

theorem blitStep_fst (l : List (Fin 2048 × Bool)) (buf : Fin 2048 → Bool) (v : Bool) :
    (l.foldl blitStep (buf, v)).1 = bufFold l buf := by
  induction l generalizing buf v with
  | nil => rfl
  | cons e rest ih => exact ih _ _

theorem bufFold_not_mem {α : Type} [DecidableEq α] (l : List (α × Bool)) (buf : α → Bool)
    (p : α) (hp : p ∉ l.map Prod.fst) : bufFold l buf p = buf p := by
  induction l generalizing buf with
  | nil => rfl
  | cons e rest ih =>
    simp only [List.map_cons, List.mem_cons, not_or] at hp
    rw [bufFold_cons, ih _ hp.2, Function.update_noteq hp.1]

theorem bufFold_update_not_mem {α : Type} [DecidableEq α] (l : List (α × Bool))
    (buf : α → Bool) (p : α) (w : Bool) (hp : p ∉ l.map Prod.fst) :
    bufFold l (Function.update buf p w) = Function.update (bufFold l buf) p w := by
  induction l generalizing buf with
  | nil => rfl
  | cons e rest ih =>
    simp only [List.map_cons, List.mem_cons, not_or] at hp
    rw [bufFold_cons, bufFold_cons, Function.update_noteq (Ne.symm hp.1),
      Function.update_comm hp.1, ih _ hp.2]

theorem bufFold_mem {α : Type} [DecidableEq α] (l : List (α × Bool)) (buf : α → Bool)
    (p : α) (b : Bool) (hn : (l.map Prod.fst).Nodup) (hm : (p, b) ∈ l) :
    bufFold l buf p = xor (buf p) b := by
  induction l generalizing buf with
  | nil => cases hm
  | cons e rest ih =>
    simp only [List.map_cons, List.nodup_cons] at hn
    rcases List.mem_cons.1 hm with he | hrest
    · have h1 : e.1 = p := by rw [← he]
      have h2 : e.2 = b := by rw [← he]
      rw [bufFold_cons, bufFold_not_mem _ _ _ (h1 ▸ hn.1), h1, Function.update_same, h2]
    · have hpe : e.1 ≠ p := by
        intro hc
        exact hn.1 (hc ▸ List.mem_map_of_mem Prod.fst hrest)
      rw [bufFold_cons, ih _ hn.2 hrest, Function.update_noteq (Ne.symm hpe)]

theorem bufFold_involutive {α : Type} [DecidableEq α] (l : List (α × Bool)) (buf : α → Bool)
    (hn : (l.map Prod.fst).Nodup) : bufFold l (bufFold l buf) = buf := by
  induction l generalizing buf with
  | nil => rfl
  | cons e rest ih =>
    simp only [List.map_cons, List.nodup_cons] at hn
    have hxor : xor (xor (buf e.1) e.2) e.2 = buf e.1 := by
      cases buf e.1 <;> cases e.2 <;> rfl
    rw [bufFold_cons, bufFold_cons, bufFold_not_mem _ _ _ hn.1, Function.update_same,
      bufFold_update_not_mem _ _ _ _ hn.1, bufFold_update_not_mem _ _ _ _ hn.1,
      bufFold_update_not_mem _ _ _ _ hn.1, ih _ hn.2, Function.update_idem,
      hxor, Function.update_eq_self]

theorem blitStep_snd (l : List (Fin 2048 × Bool)) (buf : Fin 2048 → Bool) (v : Bool)
    (hn : (l.map Prod.fst).Nodup) :
    (l.foldl blitStep (buf, v)).2 = (v || l.any fun e => buf e.1 && e.2) := by
  induction l generalizing buf v with
  | nil => simp
  | cons e rest ih =>
    simp only [List.map_cons, List.nodup_cons] at hn
    have hstep : blitStep (buf, v) e
        = (Function.update buf e.1 (xor (buf e.1) e.2), v || (buf e.1 && e.2)) := by
      have : (buf e.1 && !(xor (buf e.1) e.2)) = (buf e.1 && e.2) := by
        cases buf e.1 <;> cases e.2 <;> rfl
      simp [blitStep, this]
    show (rest.foldl blitStep (blitStep (buf, v) e)).2 = _
    rw [hstep, ih _ _ hn.2]
    have hany : (rest.any fun e2 => Function.update buf e.1 (xor (buf e.1) e.2) e2.1 && e2.2)
        = rest.any fun e2 => buf e2.1 && e2.2 := by
      apply any_congr_mem
      intro e2 he2
      have hne : e2.1 ≠ e.1 := by
        intro hc
        exact hn.1 (hc ▸ List.mem_map_of_mem Prod.fst he2)
      rw [Function.update_noteq hne]
    rw [hany]
    simp [Bool.or_assoc]

theorem drawPos_inj (ulx uly b b' r r' : Nat) (hb : b < 8) (hb' : b' < 8)
    (hr : r < 32) (hr' : r' < 32) (h : drawPos ulx uly b r = drawPos ulx uly b' r') :
    b = b' ∧ r = r' := by
  have hv : (ulx + b) % 64 + (uly + r) % 32 * 64
      = (ulx + b') % 64 + (uly + r') % 32 * 64 := congrArg Fin.val h
  omega

theorem drawList_fst_nodup (st : EmuState) (ulx uly value : Nat) (hv : value ≤ 32) :
    ((drawList st ulx uly value).map Prod.fst).Nodup := by
  have hmap : (drawList st ulx uly value).map Prod.fst
      = (List.range value).flatMap fun r => (List.range 8).map fun b => drawPos ulx uly b r := by
    simp only [drawList, List.map_flatMap, List.map_map]
    congr 1
  rw [hmap]
  apply List.nodup_flatMap.2
  constructor
  · intro r hrm
    have hr : r < 32 := lt_of_lt_of_le (List.mem_range.1 hrm) hv
    refine List.Nodup.map_on ?_ (List.nodup_range 8)
    intro x hx y hy hxy
    exact (drawPos_inj ulx uly x y r r (List.mem_range.1 hx) (List.mem_range.1 hy)
      hr hr hxy).1
  · have hlt := List.pairwise_lt_range value
    refine List.Pairwise.imp_of_mem ?_ hlt
    intro r r' hrm hrm' hrr
    intro a ha ha'
    rcases List.mem_map.1 ha with ⟨b, hb, hba⟩
    rcases List.mem_map.1 ha' with ⟨b', hb', hba'⟩
    have hr32 : r < 32 := lt_of_lt_of_le (List.mem_range.1 hrm) hv
    have hr32' : r' < 32 := lt_of_lt_of_le (List.mem_range.1 hrm') hv
    have hreq := (drawPos_inj ulx uly b b' r r' (List.mem_range.1 hb) (List.mem_range.1 hb')
      hr32 hr32' (by rw [hba, hba'])).2
    exact absurd hreq (Nat.ne_of_lt hrr)

theorem draw_sprite_memory (st : EmuState) (rx ry N : Fin 16) :
    (draw_sprite st rx ry N).memory = st.memory := rfl

theorem draw_sprite_iRegister (st : EmuState) (rx ry N : Fin 16) :
    (draw_sprite st rx ry N).iRegister = st.iRegister := rfl

theorem draw_sprite_gp_ne (st : EmuState) (rx ry N : Fin 16) (r : Fin 16) (hr : r ≠ 15) :
    (draw_sprite st rx ry N).gpRegisters r = st.gpRegisters r := by
  simp [draw_sprite, setReg_gp, hr]

theorem draw_sprite_buffer (st : EmuState) (rx ry N : Fin 16) :
    (draw_sprite st rx ry N).displayBuffer
      = bufFold (drawList (setReg st 15 0) ((setReg st 15 0).gpRegisters rx)
          ((setReg st 15 0).gpRegisters ry) N.val) st.displayBuffer := by
  show ((drawList _ _ _ _).foldl blitStep ((setReg st 15 0).displayBuffer, false)).1 = _
  rw [blitStep_fst]
  rfl

theorem draw_sprite_vf (st : EmuState) (rx ry N : Fin 16) :
    (draw_sprite st rx ry N).gpRegisters 15
      = if ((drawList (setReg st 15 0) ((setReg st 15 0).gpRegisters rx)
          ((setReg st 15 0).gpRegisters ry) N.val).foldl blitStep
            (st.displayBuffer, false)).2 then 1 else 0 := by
  rfl

theorem drawList_congr (st st1 : EmuState) (h1 : st.memory = st1.memory)
    (h2 : st.iRegister = st1.iRegister) (ulx uly n : Nat) :
    drawList st ulx uly n = drawList st1 ulx uly n := by
  simp [drawList, memRead, h1, h2]

-- the C7 theorem itself

/-- C7: drawing the identical sprite at the identical position twice in
succession restores the pre-draw framebuffer exactly, and VF after the
second draw is 1 exactly when the first draw turned some previously clear
pixel on. Holds for every state, including VF itself as a position
register (the handler zeroes VF before reading the position) and every I
value (the total embedding reads the same default for an out-of-range
sprite row in both draws). -/
theorem draw_sprite_double_xor (st : EmuState) (rx ry : Fin 16) (N : Fin 16) :
    (draw_sprite (draw_sprite st rx ry N) rx ry N).displayBuffer = st.displayBuffer
    ∧ ((draw_sprite (draw_sprite st rx ry N) rx ry N).gpRegisters 15 = 1 ↔
        ∃ p, (draw_sprite st rx ry N).displayBuffer p = true
          ∧ st.displayBuffer p = false) := by
  have hgp : ∀ r : Fin 16, (setReg (draw_sprite st rx ry N) 15 0).gpRegisters r
      = (setReg st 15 0).gpRegisters r := by
    intro r
    by_cases hr : r = 15
    · subst hr; simp [setReg_gp]
    · rw [setReg_gp, setReg_gp, if_neg hr, if_neg hr]
      exact draw_sprite_gp_ne st rx ry N r hr
  have hlist : drawList (setReg (draw_sprite st rx ry N) 15 0)
        ((setReg (draw_sprite st rx ry N) 15 0).gpRegisters rx)
        ((setReg (draw_sprite st rx ry N) 15 0).gpRegisters ry) N.val
      = drawList (setReg st 15 0) ((setReg st 15 0).gpRegisters rx)
        ((setReg st 15 0).gpRegisters ry) N.val := by
    rw [hgp rx, hgp ry]
    exact drawList_congr _ _ (draw_sprite_memory st rx ry N)
      (draw_sprite_iRegister st rx ry N) _ _ _
  have hnodup : ((drawList (setReg st 15 0) ((setReg st 15 0).gpRegisters rx)
      ((setReg st 15 0).gpRegisters ry) N.val).map Prod.fst).Nodup :=
    drawList_fst_nodup _ _ _ _ (by omega)
  constructor
  · rw [draw_sprite_buffer, hlist, draw_sprite_buffer, bufFold_involutive _ _ hnodup]
  · rw [draw_sprite_vf, hlist, draw_sprite_buffer]
    rw [show ∀ b : Bool, ((if b then (1 : Nat) else 0) = 1 ↔ b = true) from by decide]
    rw [blitStep_snd _ _ _ hnodup, Bool.false_or, List.any_eq_true]
    constructor
    · rintro ⟨e, he, hfe⟩
      rw [Bool.and_eq_true] at hfe
      obtain ⟨hb1, hb2⟩ := hfe
      have hmem : (e.1, e.2) ∈ drawList (setReg st 15 0) ((setReg st 15 0).gpRegisters rx)
          ((setReg st 15 0).gpRegisters ry) N.val := by
        rwa [Prod.mk.eta]
      have hchar := bufFold_mem _ st.displayBuffer e.1 e.2 hnodup hmem
      have hbufe : st.displayBuffer e.1 = false := by
        rw [hchar, hb2] at hb1
        cases hbuf : st.displayBuffer e.1
        · rfl
        · rw [hbuf] at hb1; exact Bool.noConfusion hb1
      exact ⟨e.1, hb1, hbufe⟩
    · rintro ⟨p, h1, h2⟩
      have hpmem : p ∈ (drawList (setReg st 15 0) ((setReg st 15 0).gpRegisters rx)
          ((setReg st 15 0).gpRegisters ry) N.val).map Prod.fst := by
        by_contra hnp
        rw [bufFold_not_mem _ _ _ hnp, h2] at h1
        exact Bool.noConfusion h1
      rcases List.mem_map.1 hpmem with ⟨e, he, hep⟩
      have hmem : (p, e.2) ∈ drawList (setReg st 15 0) ((setReg st 15 0).gpRegisters rx)
          ((setReg st 15 0).gpRegisters ry) N.val := by
        rw [← hep, Prod.mk.eta]; exact he
      have hchar := bufFold_mem _ st.displayBuffer p e.2 hnodup hmem
      have he2 : e.2 = true := by
        rw [h2] at hchar
        rw [hchar] at h1
        simpa using h1
      refine ⟨e, he, ?_⟩
      rw [hep, h1, he2]
      rfl

-- C10 ------------------------------------------------------------------

/-- A state whose I register sits at the last memory byte and whose memory
is 0xab everywhere, used to exhibit the missing draw bounds check. -/
def stNearEnd : EmuState :=
  { mkState (fun _ => 0) with memory := fun _ => 0xab, iRegister := 4095 }

/-- C10: the draw handler reads rows memory[I], ..., memory[I+N-1] with no
bounds check of its own; under I + N at most 4096 every read is the plain
in-range memory lookup (the default branch of the total embedding is
unreachable), and the precondition is required: with I = 4095 and N = 2 the
second row read falls back to the default 0 instead of the memory content
0xab, yet draw completes normally with PC advanced by 2, whereas the BCD
write and a call at the same address are fatal errors. -/
theorem draw_sprite_reads_in_bounds (st : EmuState) (N : Fin 16)
    (h : st.iRegister + N.val ≤ 4096) :
    (∀ r, ∀ hr : r < N.val, st.iRegister + r < 4096
      ∧ memRead st (st.iRegister + r) = st.memory ⟨st.iRegister + r, by omega⟩)
    ∧ memRead stNearEnd (stNearEnd.iRegister + 1) = 0
    ∧ stNearEnd.memory ⟨4095, by norm_num⟩ = 0xab
    ∧ (draw_sprite stNearEnd 0 1 2).programCounter = (0x200 + 2) % 65536
    ∧ load_bcd stNearEnd 0 = .error .bcdOutsideMemory
    ∧ call stNearEnd 4095 = .error .callOutsideMemory := by
  refine ⟨?_, rfl, rfl, rfl, rfl, rfl⟩
  intro r hr
  have hlt : st.iRegister + r < 4096 := by omega
  refine ⟨hlt, ?_⟩
  simp only [memRead]
  rw [dif_pos hlt]

/-- Witness for draw_sprite_reads_in_bounds: the all-zero state has I = 0,
so with N = 15 every row read is in bounds; row 3 in particular. -/
theorem draw_sprite_reads_in_bounds_witness :
    (mkState fun _ => 0).iRegister + 3 < 4096 :=
  ((draw_sprite_reads_in_bounds (mkState fun _ => 0) 15 (by decide)).1 3 (by decide)).1

-- C8: the program loader ------------------------------------------------

/-- The C isspace set in the default locale: space, tab, newline, vertical
tab, form feed, carriage return (the same set as the find_first_not_of
argument in load_program). -/
def isSpaceChar (c : Char) : Bool :=
  c == ' ' || c == '\t' || c == '\n' || c == '\x0b' || c == '\x0c' || c == '\r'

/-- Whether a character is a hexadecimal digit, as strtol with base 16
accepts them. -/
def isHexDigitChar (c : Char) : Bool :=
  (('0' ≤ c && c ≤ '9') || ('a' ≤ c && c ≤ 'f') || ('A' ≤ c && c ≤ 'F'))

/-- Numeric value of a hexadecimal digit character. -/
def hexDigitVal (c : Char) : Nat :=
  if '0' ≤ c && c ≤ '9' then c.toNat - '0'.toNat
  else if 'a' ≤ c && c ≤ 'f' then 10 + (c.toNat - 'a'.toNat)
  else 10 + (c.toNat - 'A'.toNat)

/-- The line splitting of load_program: both branch computations set
next_pos to one past the first newline from current_pos (for a "\r\n" the
found crlf satisfies cr = crlf + 1, so crlf + 2 = cr + 1), hence the text
splits after each newline and each line keeps its terminator. -/
def splitLines : List Char → List (List Char)
  | [] => []
  | c :: rest =>
    if c = '\n' then ['\n'] :: splitLines rest
    else
      match splitLines rest with
      | [] => [[c]]
      | l :: ls => (c :: l) :: ls

/-- Model of `std::stoi(s, nullptr, 16)`: skip leading whitespace, an
optional sign, an optional 0x/0X prefix when a hex digit follows, then the
longest run of hex digits; none models the invalid_argument throw (no
digits) and the out_of_range throw (value outside int). -/
def stoiHex (s : List Char) : Option Int :=
  let s1 := s.dropWhile fun c => isSpaceChar c
  let signed : Bool × List Char :=
    match s1 with
    | '-' :: r => (true, r)
    | '+' :: r => (false, r)
    | _ => (false, s1)
  let s3 : List Char :=
    match signed.2 with
    | '0' :: c :: r =>
      if (c == 'x' || c == 'X')
          && (match r with | d :: _ => isHexDigitChar d | [] => false) then r
      else signed.2
    | _ => signed.2
  let digits := s3.takeWhile fun c => isHexDigitChar c
  if digits.isEmpty then none
  else
    let n : Nat := digits.foldl (fun acc c => 16 * acc + hexDigitVal c) 0
    let v : Int := if signed.1 then -(n : Int) else (n : Int)
    if v < -(2 ^ 31) || v > 2 ^ 31 - 1 then none else some v

/-- Conversion of the int returned by stoi to the uint16_t word: the value
modulo 2 to the 16, nonnegative. -/
def wordOfInt (v : Int) : Nat := ((v % 65536 + 65536) % 65536).toNat

/-- Handling of one line of the loop body of load_program: `none` when the
line is skipped (all whitespace, or not starting with 0x after leading
whitespace), `some none` when stoi throws (the load fails), and
`some (some word)` when a word is parsed. -/
def parseLine (line : List Char) : Option (Option Nat) :=
  if line.all (fun c => isSpaceChar c) then none
  else
    match line.dropWhile (fun c => isSpaceChar c) with
    | c1 :: c2 :: tail =>
      if c1 = '0' ∧ c2 = 'x' then
        match stoiHex tail with
        | none => some none
        | some v => some (some (wordOfInt v))
      else none
    | _ => none

/-- The line loop of load_program: pushes the big-endian byte pair of each
parsed word and stops with none at the first line on which stoi throws. -/
def parseProgramLines : List (List Char) → Option (List Nat)
  | [] => some []
  | line :: rest =>
    match parseLine line with
    | none => parseProgramLines rest
    | some none => none
    | some (some word) =>
      match parseProgramLines rest with
      | none => none
      | some bs => some (((word &&& 0xff00) >>> 8) :: (word &&& 0x00ff) :: bs)

/-- The byte-writing loop of load_program_bytes. -/
def writeBytes (st : EmuState) (addr : Nat) : List Nat → EmuState
  | [] => st
  | b :: bs => writeBytes (memWrite st addr b) (addr + 1) bs

/-- load_program_bytes, source lines 626-636: rejects byte lists longer
than the program area, else writes them starting at 0x200. -/
def load_program_bytes (st : EmuState) (bytes : List Nat) : Bool × EmuState :=
  if bytes.length > 4096 - 0x200 then (false, st)
  else (true, writeBytes st 0x200 bytes)

/-- load_program, source lines 579-624: parses the text into bytes in a
local vector and touches the emulator state only through the final
load_program_bytes call, so a parse failure returns false with the state
untouched. -/
def load_program (st : EmuState) (text : List Char) : Bool × EmuState :=
  match parseProgramLines (splitLines text) with
  | none => (false, st)
  | some bytes => load_program_bytes st bytes

theorem parseLine_bad (line : List Char)
    (h1 : line.all (fun c => isSpaceChar c) = false) (tail : List Char)
    (h2 : line.dropWhile (fun c => isSpaceChar c) = '0' :: 'x' :: tail)
    (h3 : stoiHex tail = none) : parseLine line = some none := by
  unfold parseLine
  rw [h1]
  rw [if_neg Bool.false_ne_true, h2]
  show (if ('0' : Char) = '0' ∧ ('x' : Char) = 'x' then _ else _) = some none
  rw [if_pos ⟨rfl, rfl⟩, h3]

theorem parseProgramLines_none (lines : List (List Char))
    (h : ∃ line ∈ lines, parseLine line = some none) :
    parseProgramLines lines = none := by
  induction lines with
  | nil =>
    rcases h with ⟨l, hl, _⟩
    cases hl
  | cons line rest ih =>
    rcases h with ⟨l, hl, hbad⟩
    rcases List.mem_cons.1 hl with rfl | hmem
    · simp only [parseProgramLines]
      rw [hbad]
    · simp only [parseProgramLines]
      cases hpl : parseLine line with
      | none => exact ih ⟨l, hmem, hbad⟩
      | some o =>
        cases o with
        | none => rfl
        | some w => rw [ih ⟨l, hmem, hbad⟩]

-- the C8 theorems

/-- C8, counterexample: the text 0x12G4 plus newline contains a line whose
token after 0x is not a well-formed hexadecimal word, yet load_program
returns true and writes the byte 0x12 parsed from the two-digit numeral
that opens the token: stoi stops at the first non-digit instead of
rejecting the token. -/
theorem load_program_accepts_trailing_junk :
    (load_program (mkState fun _ => 0) ['0', 'x', '1', '2', 'G', '4', '\n']).1 = true
    ∧ (load_program (mkState fun _ => 0)
        ['0', 'x', '1', '2', 'G', '4', '\n']).2.memory ⟨0x201, by norm_num⟩ = 0x12
    ∧ (mkState fun _ => 0).memory ⟨0x201, by norm_num⟩ = 0 := by
  refine ⟨?_, ?_, rfl⟩ <;> decide

/-- C8 as amended: whenever some line of the text starts, after leading
whitespace, with 0x and the remainder of the line makes stoi throw (no
leading hexadecimal numeral, or a value outside int), load_program returns
false and the emulator state, its 4096-byte memory image included, is
returned unchanged: no byte of any line is written. -/
theorem load_program_fails_atomically (st : EmuState) (text : List Char)
    (h : ∃ line ∈ splitLines text,
      line.all (fun c => isSpaceChar c) = false
      ∧ ∃ tail, line.dropWhile (fun c => isSpaceChar c) = '0' :: 'x' :: tail
        ∧ stoiHex tail = none) :
    load_program st text = (false, st) := by
  rcases h with ⟨line, hmem, h1, tail, h2, h3⟩
  have hnone := parseProgramLines_none (splitLines text)
    ⟨line, hmem, parseLine_bad line h1 tail h2 h3⟩
  unfold load_program
  rw [hnone]

/-- Witness for load_program_fails_atomically on the text 0xZZ plus
newline. -/
theorem load_program_fails_atomically_witness :
    load_program (mkState fun _ => 0) ['0', 'x', 'Z', 'Z', '\n']
      = (false, mkState fun _ => 0) :=
  load_program_fails_atomically (mkState fun _ => 0) ['0', 'x', 'Z', 'Z', '\n']
    ⟨['0', 'x', 'Z', 'Z', '\n'], by decide,
      by decide, ⟨['Z', 'Z', '\n'], by decide, by decide⟩⟩

-- C9: the blocking key request channel ----------------------------------

/-- State of GebLib::Threading::ChannelCoordinator (src/src/geblib.h lines
9-40): the request flag and the single message slot. The mutex is held
across the whole body of request registration, of the hand-off, and of the
message consumption, so each of those bodies is one atomic step of this
state machine. -/
structure Channel where
  isRequestPending : Bool
  message : Option (Fin 16)

/-- First half of `request()` under the lock: record the pending request
(the waiter then sleeps until the message slot is filled). -/
def registerRequest (c : Channel) : Channel :=
  { c with isRequestPending := true }

/-- Second half of `request()` under the same lock: once the slot is
filled, take the message and clear the slot; none while the slot is empty
(the condition variable keeps the waiter blocked). -/
def takeResponse (c : Channel) : Option (Fin 16 × Channel) :=
  match c.message with
  | none => none
  | some k => some (k, { c with message := none })

/-- `send_if_requested` under the lock: fill the slot and clear the flag
only when a request is outstanding, otherwise do nothing. -/
def send_if_requested (c : Channel) (k : Fin 16) : Channel :=
  if c.isRequestPending then { isRequestPending := false, message := some k } else c

/-- Keyboard state (src/src/keyboard.h): the 16-entry pressed vector plus
the request channel. -/
structure KeyboardState where
  keyboardState : Fin 16 → Bool
  keyChannel : Channel

/-- What the polling loop does for one key event mapped to key index k:
on key-down it first offers the key to the channel, then records the new
pressed state; on key-up only the pressed state changes. -/
def handleKeyEvent (kb : KeyboardState) (k : Fin 16) (down : Bool) : KeyboardState :=
  { keyboardState := Function.update kb.keyboardState k down
    keyChannel := if down then send_if_requested kb.keyChannel k else kb.keyChannel }

/-- C9: once the execution context has registered its blocking request, a
key-down for key k hands exactly that key over (clearing the flag and
updating the pressed vector); the waiter consumes it exactly once (a
second take finds the slot empty), and a later unrelated key-down finds no
pending request and leaves the channel untouched; likewise a key-down with
no request pending changes only the pressed vector. -/
theorem channel_exactly_once (kb : KeyboardState) (k k2 : Fin 16) :
    (let kb1 : KeyboardState := { kb with keyChannel := registerRequest kb.keyChannel }
     let kb2 := handleKeyEvent kb1 k true
     kb2.keyChannel.isRequestPending = false
     ∧ kb2.keyChannel.message = some k
     ∧ kb2.keyboardState k = true
     ∧ ∀ key ch1, takeResponse kb2.keyChannel = some (key, ch1) →
         key = k
         ∧ takeResponse ch1 = none
         ∧ send_if_requested ch1 k2 = ch1)
    ∧ (kb.keyChannel.isRequestPending = false →
        (handleKeyEvent kb k true).keyChannel = kb.keyChannel)
    ∧ (handleKeyEvent kb k true).keyboardState
        = Function.update kb.keyboardState k true := by
  refine ⟨⟨rfl, rfl, by simp [handleKeyEvent], ?_⟩, ?_, rfl⟩
  · intro key ch1 htake
    have hk : takeResponse (handleKeyEvent
        { kb with keyChannel := registerRequest kb.keyChannel } k true).keyChannel
        = some (k, { isRequestPending := false, message := none }) := rfl
    rw [hk] at htake
    injection htake with htake
    injection htake with hkey hch
    subst hkey
    subst hch
    exact ⟨rfl, rfl, rfl⟩
  · intro hpend
    show send_if_requested kb.keyChannel k = kb.keyChannel
    simp [send_if_requested, hpend]

/-- A concrete keyboard state: nothing pressed, no pending request, empty
message slot. -/
def kb0 : KeyboardState :=
  { keyboardState := fun _ => false
    keyChannel := { isRequestPending := false, message := none } }

/-- Witness for channel_exactly_once: with no request pending, a key-down
for key 5 leaves the channel of kb0 unchanged. -/
theorem channel_exactly_once_witness :
    (handleKeyEvent kb0 5 true).keyChannel = kb0.keyChannel :=
  (channel_exactly_once kb0 5 7).2.1 rfl

end Chip8
